import Mathlib

/-!
Verification model of the circle-member-app credit ledger.

The definitions below are a shallow embedding of the credit-related logic of
`src/server.js` and of the database schema (including the `log_credit_change`
trigger of `src/database/schema.sql`).  Stateful SQL is modelled by explicit
state passing over a `DbState` record whose fields mirror the five tables.
-/

namespace CircleApp

/-- The `change_type` values written to `credit_history`, both by the
application code in `server.js` and by the `log_credit_change` trigger
of the schema. -/
inductive ChangeType where
  | initial_grant
  | monthly_refresh
  | upgrade_bonus
  | purchase
  | action_cost
  | admin_bonus
  | admin_refresh
  | credit_addition
  | credit_deduction
  deriving DecidableEq, Repr

/-- A row of the `members` table (the fields the credit logic reads). -/
structure Member where
  dbId : Nat
  circleMemberId : Nat
  isPaid : Bool
  tags : List String
  firstSeenAt : Int
  deriving DecidableEq, Repr

/-- A row of the `member_credits` table. -/
structure CreditRow where
  memberId : Nat
  balance : Int
  lastRefreshedAt : Int
  deriving DecidableEq, Repr

/-- A row of the `credit_history` table. -/
structure HistoryEntry where
  memberId : Nat
  changeAmount : Int
  changeType : ChangeType
  balanceAfter : Int
  referenceId : Option Nat
  notes : String
  deriving DecidableEq, Repr

/-- A row of the `app_actions` table. -/
structure ActionRow where
  id : Nat
  memberId : Nat
  actionType : String
  creditsCost : Int
  success : Bool
  deriving DecidableEq, Repr

/-- A row of the `processed_purchase_tags` table. -/
structure PurchaseTagRow where
  memberId : Nat
  tagValue : String
  creditsGranted : Nat
  deriving DecidableEq, Repr

/-- The database state: the five tables plus identity counters. -/
structure DbState where
  members : List Member
  member_credits : List CreditRow
  credit_history : List HistoryEntry
  app_actions : List ActionRow
  processed_purchase_tags : List PurchaseTagRow
  nextMemberId : Nat
  nextActionId : Nat
  deriving DecidableEq, Repr

/-- The resolved configuration values (`INITIAL_CREDITS_PAID`,
`INITIAL_CREDITS_FREE`, `MONTHLY_CREDITS_PAID`, `MONTHLY_CREDITS_FREE`,
`PAID_MEMBER_TAGS`), after the `parseInt(...) || default` fallbacks. -/
structure Config where
  initialCreditsPaid : Int
  initialCreditsFree : Int
  monthlyCreditsPaid : Int
  monthlyCreditsFree : Int
  paidMemberTags : List String
  deriving Repr

/-! ### Tag classification (server.js lines 378-388 and 647-668) -/

/-- JavaScript `String.prototype.trim` on the character list. -/
def jsTrim (s : List Char) : List Char :=
  ((s.dropWhile Char.isWhitespace).reverse.dropWhile Char.isWhitespace).reverse

/-- JavaScript `String.trim()` as used on each tag (`const tagStr = String(tag).trim()`). -/
def trimTag (s : String) : String :=
  String.mk (jsTrim s.toList)

/-- Value of a digit string, as `parseInt(..., 10)` computes it on an
all-digit input. -/
def digitsToNat (s : List Char) : Nat :=
  s.foldl (fun n c => 10 * n + (c.toNat - 48)) 0

/-- The regex `^\$?(\d+)$` of server.js line 651: an optional leading `$`
followed by one or more digits and nothing else.  Returns the parsed
number when the (already trimmed) tag matches. -/
def purchaseTagCredits (tagStr : String) : Option Nat :=
  let cs := tagStr.toList
  let digits := match cs with
    | c :: rest => if c = '$' then rest else cs
    | [] => cs
  if digits ≠ [] ∧ digits.all Char.isDigit then some (digitsToNat digits) else none

/-- Purchase-tag detection loop of server.js lines 647-668: each tag is
trimmed, matched against `^\$?(\d+)$`, and kept only when the amount lies
in `[1, 10000]`; everything else is silently skipped. -/
def classifyPurchases (tags : List String) : List (String × Nat) :=
  tags.filterMap (fun tag =>
    let tagStr := trimTag tag
    match purchaseTagCredits tagStr with
    | some creditAmount =>
        if 0 < creditAmount ∧ creditAmount ≤ 10000 then some (tagStr, creditAmount)
        else none
    | none => none)

/-- Substring test: JavaScript `hay.includes(needle)`. -/
def strIncludes (hay needle : String) : Bool :=
  let h := hay.toList
  let n := needle.toList
  (List.range (h.length + 1)).any (fun i => n.isPrefixOf (h.drop i))

/-- ASCII lowercasing of one character (the tags at issue are ASCII). -/
def charLower (c : Char) : Char :=
  if 'A' ≤ c ∧ c ≤ 'Z' then Char.ofNat (c.toNat + 32) else c

/-- The `tag.toLowerCase()` call, on the character list. -/
def strLower (s : String) : String :=
  String.mk (s.toList.map charLower)

/-- Paid-status detection of server.js lines 382-388 / 479-482: some tag,
lowercased, contains some configured paid keyword as a substring. -/
def isPaidOf (cfg : Config) (tags : List String) : Bool :=
  tags.any (fun tag => cfg.paidMemberTags.any (fun paidTag => strIncludes (strLower tag) paidTag))

/-! ### Credit-table primitives, including the schema trigger

`schema.sql` installs `log_member_credits_changes`, an `AFTER INSERT OR
UPDATE` trigger on `member_credits` running `log_credit_change`: an insert
logs an `initial_grant` history row, and an update whose balance differs
from the old one logs a `credit_addition`/`credit_deduction` row. -/

/-- Append one `credit_history` row. -/
def appendHistory (st : DbState) (e : HistoryEntry) : DbState :=
  { st with credit_history := st.credit_history ++ [e] }

/-- The application-written `initial_grant` row (server.js lines 543-552). -/
def initialGrantEntry (memberId : Nat) (amount : Int) (isPaid : Bool) : HistoryEntry :=
  { memberId := memberId
    changeAmount := amount
    changeType := .initial_grant
    balanceAfter := amount
    referenceId := none
    notes := "Initial credit grant: " ++ (if isPaid then "paid" else "free") ++ " member" }

/-- The `upgrade_bonus` row (server.js lines 587-596). -/
def upgradeBonusEntry (memberId : Nat) (amount newBal : Int) : HistoryEntry :=
  { memberId := memberId
    changeAmount := amount
    changeType := .upgrade_bonus
    balanceAfter := newBal
    referenceId := none
    notes := "Credit bonus for upgrading to paid membership" }

/-- The `monthly_refresh` row (server.js lines 621-630). -/
def monthlyRefreshEntry (memberId : Nat) (amount newBal : Int) (isPaid : Bool) : HistoryEntry :=
  { memberId := memberId
    changeAmount := amount
    changeType := .monthly_refresh
    balanceAfter := newBal
    referenceId := none
    notes := "Monthly credit refresh: " ++ (if isPaid then "paid" else "free") ++ " member" }

/-- The `purchase` row (server.js lines 725-734). -/
def purchaseEntry (memberId : Nat) (credits : Nat) (newBal : Int) (tagValue : String) :
    HistoryEntry :=
  { memberId := memberId
    changeAmount := (credits : Int)
    changeType := .purchase
    balanceAfter := newBal
    referenceId := none
    notes := "One-time purchase: " ++ tagValue }

/-- The `action_cost` row (server.js lines 1134-1144). -/
def actionCostEntry (memberId : Nat) (cost newBal : Int) (actionId : Nat)
    (actionType : String) : HistoryEntry :=
  { memberId := memberId
    changeAmount := -cost
    changeType := .action_cost
    balanceAfter := newBal
    referenceId := some actionId
    notes := "Credits spent on " ++ actionType }

/-- The `admin_bonus` row (server.js lines 1516-1525). -/
def adminBonusEntry (memberId : Nat) (amount newBal : Int) (adminEmail : String) :
    HistoryEntry :=
  { memberId := memberId
    changeAmount := amount
    changeType := .admin_bonus
    balanceAfter := newBal
    referenceId := none
    notes := "Manual credit bonus added by admin " ++ adminEmail }

/-- The `admin_refresh` row (server.js lines 1546-1555). -/
def adminRefreshEntry (memberId : Nat) (amount newBal : Int) (adminEmail : String) :
    HistoryEntry :=
  { memberId := memberId
    changeAmount := amount
    changeType := .admin_refresh
    balanceAfter := newBal
    referenceId := none
    notes := "Manual monthly refresh by admin " ++ adminEmail }

/-- The `UPDATE` branch of the `log_credit_change` trigger. -/
def log_credit_change_update (st : DbState) (memberId : Nat) (oldBal newBal : Int) : DbState :=
  if oldBal ≠ newBal then
    appendHistory st
      { memberId := memberId
        changeAmount := newBal - oldBal
        changeType := if oldBal < newBal then .credit_addition else .credit_deduction
        balanceAfter := newBal
        referenceId := none
        notes := "Automatic log from credit balance change" }
  else st

/-- The trigger row written by the `INSERT` branch of `log_credit_change`. -/
def trigInsertEntry (memberId : Nat) (bal : Int) : HistoryEntry :=
  { memberId := memberId
    changeAmount := bal
    changeType := .initial_grant
    balanceAfter := bal
    referenceId := none
    notes := "Initial credit grant for new member" }

/-- The `INSERT` branch of the `log_credit_change` trigger. -/
def log_credit_change_insert (st : DbState) (memberId : Nat) (bal : Int) : DbState :=
  appendHistory st (trigInsertEntry memberId bal)

/-- SQL `UPDATE member_credits SET credits_balance = .., [last_refreshed_at = ..]
WHERE member_id = ..`.  Updates nothing (and fires no trigger) when the row
is absent; otherwise applies the update and runs the trigger. -/
def updateCreditsBalance (st : DbState) (memberId : Nat) (newBal : Int)
    (newRefreshedAt : Option Int) : DbState :=
  match st.member_credits.find? (fun c => c.memberId = memberId) with
  | none => st
  | some row =>
      let st1 := { st with
        member_credits := st.member_credits.map (fun c =>
          if c.memberId = memberId then
            { c with balance := newBal,
                     lastRefreshedAt := newRefreshedAt.getD c.lastRefreshedAt }
          else c) }
      log_credit_change_update st1 memberId row.balance newBal

/-- SQL `INSERT INTO member_credits .. ON CONFLICT (member_id) DO UPDATE ..`
(server.js lines 531-540), with the trigger on either path. -/
def insertOrUpdateCredits (st : DbState) (memberId : Nat) (bal : Int)
    (refreshedAt : Int) : DbState :=
  match st.member_credits.find? (fun c => c.memberId = memberId) with
  | some _ => updateCreditsBalance st memberId bal (some refreshedAt)
  | none =>
      let st1 := { st with
        member_credits := st.member_credits ++
          [{ memberId := memberId, balance := bal, lastRefreshedAt := refreshedAt }] }
      log_credit_change_insert st1 memberId bal

/-- Sum of `change_amount` over a member's `credit_history` rows. -/
def historySum (st : DbState) (memberId : Nat) : Int :=
  ((st.credit_history.filter (fun e => decide (e.memberId = memberId))).map
    (fun e => e.changeAmount)).sum

/-- The member's stored `credits_balance` (0 when no row exists). -/
def balanceOf (st : DbState) (memberId : Nat) : Int :=
  match st.member_credits.find? (fun c => c.memberId = memberId) with
  | some c => c.balance
  | none => 0

/-- Count of a member's history rows with a given change type. -/
def countType (entries : List HistoryEntry) (memberId : Nat) (t : ChangeType) : Nat :=
  (entries.filter (fun e => decide (e.memberId = memberId ∧ e.changeType = t))).length

/-! ### Purchase-tag settlement (server.js lines 674-763)

The settlement runs inside one `BEGIN`/`COMMIT` with a `ROLLBACK` on any
error: one balance `UPDATE`, then per purchase tag one
`processed_purchase_tags` insert and one `credit_history` insert.  The
transaction body is modelled as a list of writes; a `ROLLBACK` discards
every write of the transaction, so a failure at any position yields the
pre-transaction state. -/

/-- One SQL statement of the purchase-settlement transaction. -/
inductive PTOp where
  | updateBalance (memberId : Nat) (newBal : Int)
  | insertTag (memberId : Nat) (tagValue : String) (credits : Nat)
  | insertHist (memberId : Nat) (credits : Nat) (balanceAfter : Int) (tagValue : String)
  deriving DecidableEq, Repr

/-- Effect of one settlement statement (the balance update fires the
schema trigger, as in the database). -/
def applyPTOp (st : DbState) : PTOp → DbState
  | .updateBalance mid nb => updateCreditsBalance st mid nb none
  | .insertTag mid tv cr =>
      { st with processed_purchase_tags := st.processed_purchase_tags ++
          [{ memberId := mid, tagValue := tv, creditsGranted := cr }] }
  | .insertHist mid cr ba tv => appendHistory st (purchaseEntry mid cr ba tv)

/-- The statements of the settlement transaction, in source order:
the single balance update, then per tag the audit row and the
`purchase` history row. -/
def purchaseOps (memberId : Nat) (purchases : List (String × Nat)) (newBalance : Int) :
    List PTOp :=
  .updateBalance memberId newBalance ::
    purchases.flatMap (fun p =>
      [.insertTag memberId p.1 p.2, .insertHist memberId p.2 newBalance p.1])

/-- Run the transaction body; `failAt = some k` makes the k-th statement
raise, leaving the transaction unfinished (`none`). -/
def runPTOps : DbState → List PTOp → Option Nat → Option DbState
  | st, [], _ => some st
  | _, _ :: _, some 0 => none
  | st, op :: rest, some (n + 1) => runPTOps (applyPTOp st op) rest (some n)
  | st, op :: rest, none => runPTOps (applyPTOp st op) rest none

/-- The settlement block of server.js lines 674-763: detect the purchase
tags, and when the total is positive run the transaction; on error the
`ROLLBACK` restores the pre-transaction state.  Returns the new state and
the in-memory `creditsResult.rows[0].credits_balance` after the block. -/
def purchasePhase (st : DbState) (memberId : Nat) (tags : List String)
    (creditsResultBalance : Int) (failAt : Option Nat) : DbState × Int :=
  let purchaseTags := classifyPurchases tags
  if purchaseTags.length > 0 then
    let totalCreditsToAdd : Int := (purchaseTags.map (fun p => (p.2 : Int))).sum
    if totalCreditsToAdd > 0 then
      let newBalance := creditsResultBalance + totalCreditsToAdd
      match runPTOps st (purchaseOps memberId purchaseTags newBalance) failAt with
      | some st1 => (st1, newBalance)
      | none => (st, creditsResultBalance)
    else (st, creditsResultBalance)
  else (st, creditsResultBalance)

/-! ### The credit branches of `POST /api/auth` (server.js lines 432-806) -/

/-- Initial grant (server.js lines 523-553): upsert the credit row to the
configured initial amount and log an `initial_grant` history row.  Returns
the new state and `creditsResult.rows[0].credits_balance`. -/
def initialGrantStep (cfg : Config) (st : DbState) (memberId : Nat)
    (currentIsPaid : Bool) (now : Int) : DbState × Int :=
  let initialCredits := if currentIsPaid then cfg.initialCreditsPaid else cfg.initialCreditsFree
  let st1 := insertOrUpdateCredits st memberId initialCredits now
  let st2 := appendHistory st1 (initialGrantEntry memberId initialCredits currentIsPaid)
  (st2, initialCredits)

/-- Returning-member branch (server.js lines 554-632): optional upgrade
bonus, then optional monthly refresh.  `rec` is the credit row read at the
top of the branch (`creditsRecord`); `tagsChanged` is the
`JSON.stringify` comparison of previous and current tags.  Returns the new
state and `creditsResult.rows[0].credits_balance`. -/
def returningStep (cfg : Config) (st : DbState) (memberId : Nat)
    (previousPaidStatus currentIsPaid tagsChanged : Bool)
    (rec : CreditRow) (now oneMonthAgo : Int) : DbState × Int :=
  let bonusRes : DbState × Int :=
    if ((previousPaidStatus != currentIsPaid) || tagsChanged)
        && (!previousPaidStatus && currentIsPaid) then
      let upgradeBonus := cfg.initialCreditsPaid - cfg.initialCreditsFree
      let newBalance := rec.balance + upgradeBonus
      let st1 := updateCreditsBalance st memberId newBalance none
      let st2 := appendHistory st1 (upgradeBonusEntry memberId upgradeBonus newBalance)
      (st2, newBalance)
    else (st, rec.balance)
  if rec.lastRefreshedAt < oneMonthAgo then
    let monthlyCredits := if currentIsPaid then cfg.monthlyCreditsPaid else cfg.monthlyCreditsFree
    -- `creditsResult.rows[0]?.credits_balance || creditsRecord.credits_balance`
    let currentBalance := if bonusRes.2 ≠ 0 then bonusRes.2 else rec.balance
    let newBalance := currentBalance + monthlyCredits
    let st1 := updateCreditsBalance bonusRes.1 memberId newBalance (some now)
    let st2 := appendHistory st1 (monthlyRefreshEntry memberId monthlyCredits newBalance currentIsPaid)
    (st2, newBalance)
  else bonusRes

/-- One authentication event as it reaches the database-integration block:
the member's external id, the normalized current tags, the current time in
milliseconds, the precomputed `oneMonthAgo` timestamp
(`new Date()` with its month decremented), and an optional failure
position for the purchase-settlement transaction. -/
structure AuthEvent where
  circleMemberId : Nat
  tags : List String
  now : Int
  oneMonthAgo : Int
  purchaseFailAt : Option Nat
  deriving Repr

/-- The conflict branch of the member upsert: update the mutable fields of
the existing row. -/
def upsertExisting (st : DbState) (cmid : Nat) (isPaid : Bool) (tags : List String) :
    DbState :=
  { st with members := st.members.map (fun x =>
      if x.circleMemberId = cmid then { x with isPaid := isPaid, tags := tags } else x) }

/-- The insert branch of the member upsert: a fresh row whose
`first_seen_at` is now. -/
def insertNewMember (st : DbState) (cmid : Nat) (isPaid : Bool) (tags : List String)
    (now : Int) : DbState :=
  { st with
    members := st.members ++
      [{ dbId := st.nextMemberId
         circleMemberId := cmid
         isPaid := isPaid
         tags := tags
         firstSeenAt := now }]
    nextMemberId := st.nextMemberId + 1 }

/-- The database-integration block of `POST /api/auth` (server.js lines
432-806): pre-upsert snapshot, member upsert, new-user detection, the
grant/refresh/bonus branch, then purchase settlement. -/
def processAuth (cfg : Config) (st : DbState) (ev : AuthEvent) : DbState :=
  let prev := st.members.find? (fun m => m.circleMemberId = ev.circleMemberId)
  let previousPaidStatus := (prev.map (fun m => m.isPaid)).getD false
  let previousTags := (prev.map (fun m => m.tags)).getD []
  let currentIsPaid := isPaidOf cfg ev.tags
  let upres : DbState × Nat × Int :=
    match prev with
    | some m =>
        (upsertExisting st ev.circleMemberId currentIsPaid ev.tags, m.dbId, m.firstSeenAt)
    | none =>
        (insertNewMember st ev.circleMemberId currentIsPaid ev.tags ev.now,
          st.nextMemberId, ev.now)
  let st1 := upres.1
  let dbMemberId := upres.2.1
  let firstSeenAt := upres.2.2
  let granted : DbState × Int :=
    match st1.member_credits.find? (fun c => c.memberId = dbMemberId) with
    | none => initialGrantStep cfg st1 dbMemberId currentIsPaid ev.now
    | some rec =>
        if ev.now - firstSeenAt < 30000 then
          initialGrantStep cfg st1 dbMemberId currentIsPaid ev.now
        else
          returningStep cfg st1 dbMemberId previousPaidStatus currentIsPaid
            (decide (previousTags ≠ ev.tags)) rec ev.now ev.oneMonthAgo
  (purchasePhase granted.1 dbMemberId ev.tags granted.2 ev.purchaseFailAt).1

/-! ### `POST /api/credits/spend` (server.js lines 1075-1175) -/

/-- Result of a spend request: the success payload, or the HTTP error
status produced by the catch block (402 for the insufficient-credits
message, 404 for a not-found message, 500 otherwise). -/
inductive SpendOutcome where
  | ok (actionId : Nat) (creditsSpent creditsRemaining : Int)
  | err (status : Nat) (message : String)
  deriving DecidableEq, Repr

/-- The spend transaction: join member and credit row (`FOR UPDATE`),
check the balance, deduct, insert the `app_actions` row, insert the
`action_cost` history row.  Any raised error rolls the transaction back,
so the error cases return the state unchanged. -/
def spendHandler (st : DbState) (circleMemberId : Nat) (actionType : String)
    (creditsCost : Int) : DbState × SpendOutcome :=
  match st.members.find? (fun m => m.circleMemberId = circleMemberId) with
  | none => (st, .err 404 ("Member or credit record not found"))
  | some m =>
    match st.member_credits.find? (fun c => c.memberId = m.dbId) with
    | none => (st, .err 404 ("Member or credit record not found"))
    | some c =>
        if c.balance < creditsCost then
          (st, .err 402 ("Insufficient credits"))
        else
          let newBalance := c.balance - creditsCost
          let st1 := updateCreditsBalance st m.dbId newBalance none
          let actionId := st1.nextActionId
          let st2 := { st1 with
            app_actions := st1.app_actions ++
              [{ id := actionId
                 memberId := m.dbId
                 actionType := actionType
                 creditsCost := creditsCost
                 success := true }]
            nextActionId := actionId + 1 }
          let st3 := appendHistory st2
            (actionCostEntry m.dbId creditsCost newBalance actionId actionType)
          (st3, .ok actionId creditsCost newBalance)

/-! ### `POST /api/admin/refresh-credits/:circle_member_id`
(server.js lines 1482-1594) -/

/-- The response body of the admin credit adjustment. -/
structure AdminOutcome where
  status : Nat
  previousBalance : Int
  creditsAdded : Int
  currentBalance : Int
  deriving DecidableEq, Repr

/-- The admin refresh-credits endpoint: look the member up with a `LEFT
JOIN` on `member_credits` (so a missing credit row yields a null balance,
not a 404), optionally add bonus credits, optionally force a monthly
refresh, then read the final balance back (`|| 0` when no row exists). -/
def adminRefreshCredits (cfg : Config) (st : DbState) (circleMemberId : Nat)
    (bonusCredits : Int) (forceRefresh : Bool) (now : Int) (adminEmail : String) :
    DbState × AdminOutcome :=
  match st.members.find? (fun m => m.circleMemberId = circleMemberId) with
  | none => (st, { status := 404, previousBalance := 0, creditsAdded := 0, currentBalance := 0 })
  | some m =>
      let memberBalance : Option Int :=
        (st.member_credits.find? (fun c => c.memberId = m.dbId)).map (fun c => c.balance)
      let bonusRes : DbState × Int :=
        if bonusCredits > 0 then
          let newBalance := memberBalance.getD 0 + bonusCredits
          let st1 := updateCreditsBalance st m.dbId newBalance none
          let st2 := appendHistory st1
            (adminBonusEntry m.dbId bonusCredits newBalance adminEmail)
          (st2, bonusCredits)
        else (st, 0)
      let refreshRes : DbState × Int :=
        if forceRefresh then
          let monthlyCredits := if m.isPaid then cfg.monthlyCreditsPaid else cfg.monthlyCreditsFree
          -- `(member.credits_balance || 0) + (bonus_credits || 0)`
          let currentBalance := memberBalance.getD 0 + bonusCredits
          let newBalance := currentBalance + monthlyCredits
          let st1 := updateCreditsBalance bonusRes.1 m.dbId newBalance (some now)
          let st2 := appendHistory st1
            (adminRefreshEntry m.dbId monthlyCredits newBalance adminEmail)
          (st2, bonusRes.2 + monthlyCredits)
        else bonusRes
      let finalBalance :=
        match refreshRes.1.member_credits.find? (fun c => c.memberId = m.dbId) with
        | some c => c.balance
        | none => 0
      (refreshRes.1,
        { status := 200
          previousBalance := memberBalance.getD 0
          creditsAdded := refreshRes.2
          currentBalance := finalBalance })

/-! ### Interleaving model of concurrent spends (server.js lines 1094-1161)

Each spend transaction performs `SELECT ... FOR UPDATE` (atomically
acquiring the row lock and reading the balance), then either raises
`Insufficient credits` (rollback, releasing the lock) or writes the
deducted balance and commits (releasing the lock).  Postgres blocks a
second `FOR UPDATE` until the lock holder commits or rolls back, so a
transaction whose next step is the locking read cannot proceed while the
other holds the lock.  Two concurrent spend requests against the same
credit row are modelled with an explicit scheduler choosing which
transaction steps next. -/

/-- Progress of one spend transaction: not yet started, holding the row
lock with the balance it read, committed, or rolled back. -/
inductive TxnPhase where
  | ready
  | locked (readBalance : Int)
  | committed
  | aborted
  deriving DecidableEq, Repr

/-- Shared state of two concurrent spend transactions on one credit row:
the stored balance, the row lock (`some i` when transaction `i` holds it),
and each transaction's phase. -/
structure SpendRace where
  balance : Int
  lock : Option Bool
  phaseA : TxnPhase
  phaseB : TxnPhase
  deriving DecidableEq, Repr

/-- Phase of transaction `i`. -/
def SpendRace.phase (s : SpendRace) (i : Bool) : TxnPhase :=
  if i then s.phaseA else s.phaseB

/-- Replace the phase of transaction `i`. -/
def SpendRace.setPhase (s : SpendRace) (i : Bool) (p : TxnPhase) : SpendRace :=
  if i then { s with phaseA := p } else { s with phaseB := p }

/-- Replace the lock field. -/
def SpendRace.withLock (s : SpendRace) (l : Option Bool) : SpendRace :=
  { s with lock := l }

/-- One scheduler step giving transaction `i` its next move.  A `ready`
transaction acquires the free lock and reads the balance (blocked if the
other holds the lock); a `locked` transaction compares the read balance
with its cost and either rolls back or writes the deduction and commits. -/
def spendStep (costA costB : Int) (s : SpendRace) (i : Bool) : SpendRace :=
  let cost := if i then costA else costB
  match s.phase i with
  | .ready =>
      match s.lock with
      | none => (s.setPhase i (.locked s.balance)).withLock (some i)
      | some _ => s
  | .locked v =>
      if v < cost then (s.setPhase i .aborted).withLock none
      else { (s.setPhase i .committed).withLock none with balance := v - cost }
  | _ => s

/-- Run a schedule (list of scheduler choices). -/
def spendRun (costA costB : Int) (s : SpendRace) : List Bool → SpendRace
  | [] => s
  | i :: rest => spendRun costA costB (spendStep costA costB s i) rest

/-- Initial state: stored balance `b`, lock free, both requests pending. -/
def spendInit (b : Int) : SpendRace :=
  { balance := b, lock := none, phaseA := .ready, phaseB := .ready }

/-- Inductive invariant of the two-spend race: a lock holder's read
balance is the current stored balance, the stored balance accounts exactly
for the committed deductions, and the stored balance never goes negative. -/
def SpendInv (cA cB b0 : Int) (s : SpendRace) : Prop :=
  (∀ v, s.phaseA = .locked v → s.lock = some true ∧ v = s.balance) ∧
  (∀ v, s.phaseB = .locked v → s.lock = some false ∧ v = s.balance) ∧
  s.balance + ((if s.phaseA = .committed then cA else 0)
    + (if s.phaseB = .committed then cB else 0)) = b0 ∧
  0 ≤ s.balance

theorem spendStep_inv {cA cB b0 : Int} {s : SpendRace} (i : Bool)
    (h : SpendInv cA cB b0 s) : SpendInv cA cB b0 (spendStep cA cB s i) := by
  obtain ⟨hA, hB, hsum, hpos⟩ := h
  cases i
  · rcases hpb : s.phaseB with _ | v | _ | _
    · rcases hl : s.lock with _ | j
      · have hstep : spendStep cA cB s false =
            { s with phaseB := TxnPhase.locked s.balance, lock := some false } := by
          simp [spendStep, SpendRace.phase, SpendRace.setPhase, SpendRace.withLock, hpb, hl]
        rw [hstep]
        refine ⟨?_, ?_, ?_, ?_⟩
        · intro w hw
          have hcontra := (hA w hw).1
          rw [hl] at hcontra
          cases hcontra
        · intro w hw
          cases hw
          exact ⟨rfl, rfl⟩
        · have h2 := hsum
          rw [hpb] at h2
          show s.balance + ((if s.phaseA = TxnPhase.committed then cA else 0) +
            (if (TxnPhase.locked s.balance : TxnPhase) = TxnPhase.committed then cB else 0)) = b0
          simpa using h2
        · exact hpos
      · have hstep : spendStep cA cB s false = s := by
          simp [spendStep, SpendRace.phase, hpb, hl]
        rw [hstep]
        exact ⟨hA, hB, hsum, hpos⟩
    · obtain ⟨hlock, hv⟩ := hB v hpb
      subst hv
      have hAnot : ∀ w, s.phaseA ≠ TxnPhase.locked w := by
        intro w hw
        exact absurd (hlock.symm.trans (hA w hw).1) (by simp)
      have h2 := hsum
      rw [hpb] at h2
      simp only [reduceCtorEq, if_false] at h2
      by_cases hc : s.balance < cB
      · have hstep : spendStep cA cB s false =
            { s with phaseB := TxnPhase.aborted, lock := none } := by
          simp [spendStep, SpendRace.phase, SpendRace.setPhase, SpendRace.withLock, hpb, hc]
        rw [hstep]
        refine ⟨?_, ?_, ?_, ?_⟩
        · intro w hw
          exact absurd hw (hAnot w)
        · intro w hw
          cases hw
        · show s.balance + ((if s.phaseA = TxnPhase.committed then cA else 0) +
            (if (TxnPhase.aborted : TxnPhase) = TxnPhase.committed then cB else 0)) = b0
          simpa using h2
        · exact hpos
      · have hstep : spendStep cA cB s false =
            { s with balance := s.balance - cB, phaseB := TxnPhase.committed, lock := none } := by
          simp [spendStep, SpendRace.phase, SpendRace.setPhase, SpendRace.withLock, hpb, hc]
        rw [hstep]
        refine ⟨?_, ?_, ?_, ?_⟩
        · intro w hw
          exact absurd hw (hAnot w)
        · intro w hw
          cases hw
        · show (s.balance - cB) + ((if s.phaseA = TxnPhase.committed then cA else 0) +
            (if (TxnPhase.committed : TxnPhase) = TxnPhase.committed then cB else 0)) = b0
          rw [if_pos rfl]
          linarith [h2]
        · show (0 : Int) ≤ s.balance - cB
          omega
    · have hstep : spendStep cA cB s false = s := by
        simp [spendStep, SpendRace.phase, hpb]
      rw [hstep]
      exact ⟨hA, hB, hsum, hpos⟩
    · have hstep : spendStep cA cB s false = s := by
        simp [spendStep, SpendRace.phase, hpb]
      rw [hstep]
      exact ⟨hA, hB, hsum, hpos⟩
  · rcases hpa : s.phaseA with _ | v | _ | _
    · rcases hl : s.lock with _ | j
      · have hstep : spendStep cA cB s true =
            { s with phaseA := TxnPhase.locked s.balance, lock := some true } := by
          simp [spendStep, SpendRace.phase, SpendRace.setPhase, SpendRace.withLock, hpa, hl]
        rw [hstep]
        refine ⟨?_, ?_, ?_, ?_⟩
        · intro w hw
          cases hw
          exact ⟨rfl, rfl⟩
        · intro w hw
          have hcontra := (hB w hw).1
          rw [hl] at hcontra
          cases hcontra
        · have h2 := hsum
          rw [hpa] at h2
          show s.balance + ((if (TxnPhase.locked s.balance : TxnPhase) = TxnPhase.committed
            then cA else 0) + (if s.phaseB = TxnPhase.committed then cB else 0)) = b0
          simpa using h2
        · exact hpos
      · have hstep : spendStep cA cB s true = s := by
          simp [spendStep, SpendRace.phase, hpa, hl]
        rw [hstep]
        exact ⟨hA, hB, hsum, hpos⟩
    · obtain ⟨hlock, hv⟩ := hA v hpa
      subst hv
      have hBnot : ∀ w, s.phaseB ≠ TxnPhase.locked w := by
        intro w hw
        exact absurd (hlock.symm.trans (hB w hw).1) (by simp)
      have h2 := hsum
      rw [hpa] at h2
      simp only [reduceCtorEq, if_false] at h2
      by_cases hc : s.balance < cA
      · have hstep : spendStep cA cB s true =
            { s with phaseA := TxnPhase.aborted, lock := none } := by
          simp [spendStep, SpendRace.phase, SpendRace.setPhase, SpendRace.withLock, hpa, hc]
        rw [hstep]
        refine ⟨?_, ?_, ?_, ?_⟩
        · intro w hw
          cases hw
        · intro w hw
          exact absurd hw (hBnot w)
        · show s.balance + ((if (TxnPhase.aborted : TxnPhase) = TxnPhase.committed
            then cA else 0) + (if s.phaseB = TxnPhase.committed then cB else 0)) = b0
          simpa using h2
        · exact hpos
      · have hstep : spendStep cA cB s true =
            { s with balance := s.balance - cA, phaseA := TxnPhase.committed, lock := none } := by
          simp [spendStep, SpendRace.phase, SpendRace.setPhase, SpendRace.withLock, hpa, hc]
        rw [hstep]
        refine ⟨?_, ?_, ?_, ?_⟩
        · intro w hw
          cases hw
        · intro w hw
          exact absurd hw (hBnot w)
        · show (s.balance - cA) + ((if (TxnPhase.committed : TxnPhase) = TxnPhase.committed
            then cA else 0) + (if s.phaseB = TxnPhase.committed then cB else 0)) = b0
          rw [if_pos rfl]
          linarith [h2]
        · show (0 : Int) ≤ s.balance - cA
          omega
    · have hstep : spendStep cA cB s true = s := by
        simp [spendStep, SpendRace.phase, hpa]
      rw [hstep]
      exact ⟨hA, hB, hsum, hpos⟩
    · have hstep : spendStep cA cB s true = s := by
        simp [spendStep, SpendRace.phase, hpa]
      rw [hstep]
      exact ⟨hA, hB, hsum, hpos⟩

theorem spendRun_inv {cA cB b0 : Int} {s : SpendRace} (sched : List Bool)
    (h : SpendInv cA cB b0 s) : SpendInv cA cB b0 (spendRun cA cB s sched) := by
  induction sched generalizing s with
  | nil => exact h
  | cons i rest ih => exact ih (spendStep_inv i h)

theorem spendInit_inv (cA cB : Int) {b0 : Int} (h0 : 0 ≤ b0) :
    SpendInv cA cB b0 (spendInit b0) := by
  refine ⟨?_, ?_, ?_, ?_⟩ <;> simp [spendInit, SpendInv, h0]

/-! ### Helper lemmas -/

/-- The trigger row written by the `UPDATE` branch of `log_credit_change`. -/
def trigUpdateEntry (memberId : Nat) (oldBal newBal : Int) : HistoryEntry :=
  { memberId := memberId
    changeAmount := newBal - oldBal
    changeType := if oldBal < newBal then .credit_addition else .credit_deduction
    balanceAfter := newBal
    referenceId := none
    notes := "Automatic log from credit balance change" }

theorem log_credit_change_update_history (st : DbState) (mid : Nat) (o n : Int) :
    (log_credit_change_update st mid o n).credit_history =
      st.credit_history ++ (if o = n then [] else [trigUpdateEntry mid o n]) := by
  unfold log_credit_change_update appendHistory trigUpdateEntry
  by_cases h : o = n <;> simp [h]

theorem log_credit_change_update_mc (st : DbState) (mid : Nat) (o n : Int) :
    (log_credit_change_update st mid o n).member_credits = st.member_credits := by
  unfold log_credit_change_update appendHistory
  by_cases h : o = n <;> simp [h]

theorem log_credit_change_update_actions (st : DbState) (mid : Nat) (o n : Int) :
    (log_credit_change_update st mid o n).app_actions = st.app_actions := by
  unfold log_credit_change_update appendHistory
  by_cases h : o = n <;> simp [h]

theorem log_credit_change_update_ppt (st : DbState) (mid : Nat) (o n : Int) :
    (log_credit_change_update st mid o n).processed_purchase_tags =
      st.processed_purchase_tags := by
  unfold log_credit_change_update appendHistory
  by_cases h : o = n <;> simp [h]

theorem log_credit_change_update_nextActionId (st : DbState) (mid : Nat) (o n : Int) :
    (log_credit_change_update st mid o n).nextActionId = st.nextActionId := by
  unfold log_credit_change_update appendHistory
  by_cases h : o = n <;> simp [h]

/-- Lookup via `find?` on the credit table after the balance-update map. -/
theorem find?_update (l : List CreditRow) (mid : Nat) (nb : Int) (nr : Option Int)
    (c : CreditRow) (h : l.find? (fun x => x.memberId = mid) = some c) :
    (l.map (fun x =>
        if x.memberId = mid then
          { x with balance := nb, lastRefreshedAt := nr.getD x.lastRefreshedAt }
        else x)).find? (fun x => x.memberId = mid) =
      some { c with balance := nb, lastRefreshedAt := nr.getD c.lastRefreshedAt } := by
  induction l with
  | nil => cases h
  | cons a t ih =>
      by_cases ha : a.memberId = mid
      · rw [List.find?_cons_of_pos _ (by simpa using ha)] at h
        injection h with h2
        subst h2
        rw [List.map_cons, if_pos ha]
        exact List.find?_cons_of_pos _ (by simpa using ha)
      · rw [List.find?_cons_of_neg _ (by simpa using ha)] at h
        rw [List.map_cons, if_neg ha]
        rw [List.find?_cons_of_neg _ (by simpa using ha)]
        exact ih h

theorem updateCreditsBalance_history (st : DbState) (mid : Nat) (nb : Int) (nr : Option Int)
    (c : CreditRow) (h : st.member_credits.find? (fun x => x.memberId = mid) = some c) :
    (updateCreditsBalance st mid nb nr).credit_history =
      st.credit_history ++ (if c.balance = nb then [] else [trigUpdateEntry mid c.balance nb]) := by
  unfold updateCreditsBalance
  rw [h]
  exact log_credit_change_update_history _ _ _ _

theorem updateCreditsBalance_find? (st : DbState) (mid : Nat) (nb : Int) (nr : Option Int)
    (c : CreditRow) (h : st.member_credits.find? (fun x => x.memberId = mid) = some c) :
    (updateCreditsBalance st mid nb nr).member_credits.find? (fun x => x.memberId = mid) =
      some { c with balance := nb, lastRefreshedAt := nr.getD c.lastRefreshedAt } := by
  unfold updateCreditsBalance
  rw [h]
  rw [log_credit_change_update_mc]
  exact find?_update _ _ _ _ _ h

theorem updateCreditsBalance_none (st : DbState) (mid : Nat)
    (h : st.member_credits.find? (fun x => x.memberId = mid) = none)
    (nb : Int) (nr : Option Int) :
    updateCreditsBalance st mid nb nr = st := by
  unfold updateCreditsBalance
  rw [h]

theorem updateCreditsBalance_nextActionId (st : DbState) (mid : Nat) (nb : Int)
    (nr : Option Int) :
    (updateCreditsBalance st mid nb nr).nextActionId = st.nextActionId := by
  unfold updateCreditsBalance
  split
  · rfl
  · rw [log_credit_change_update_nextActionId]

theorem updateCreditsBalance_app_actions (st : DbState) (mid : Nat) (nb : Int)
    (nr : Option Int) :
    (updateCreditsBalance st mid nb nr).app_actions = st.app_actions := by
  unfold updateCreditsBalance
  split
  · rfl
  · rw [log_credit_change_update_actions]

theorem updateCreditsBalance_ppt (st : DbState) (mid : Nat) (nb : Int)
    (nr : Option Int) :
    (updateCreditsBalance st mid nb nr).processed_purchase_tags =
      st.processed_purchase_tags := by
  unfold updateCreditsBalance
  split
  · rfl
  · rw [log_credit_change_update_ppt]

theorem appendHistory_filter (st : DbState) (e : HistoryEntry) (p : HistoryEntry → Bool) :
    ((appendHistory st e).credit_history.filter p) =
      st.credit_history.filter p ++ (if p e then [e] else []) := by
  unfold appendHistory
  by_cases h : p e <;> simp [List.filter_append, h]

theorem appendHistory_mc (st : DbState) (e : HistoryEntry) :
    (appendHistory st e).member_credits = st.member_credits := rfl

theorem appendHistory_history (st : DbState) (e : HistoryEntry) :
    (appendHistory st e).credit_history = st.credit_history ++ [e] := rfl

theorem appendHistory_actions (st : DbState) (e : HistoryEntry) :
    (appendHistory st e).app_actions = st.app_actions := rfl

theorem balanceOf_eq (st : DbState) (mid : Nat) (c : CreditRow)
    (h : st.member_credits.find? (fun x => x.memberId = mid) = some c) :
    balanceOf st mid = c.balance := by
  unfold balanceOf
  rw [h]

theorem countType_append (l1 l2 : List HistoryEntry) (mid : Nat) (t : ChangeType) :
    countType (l1 ++ l2) mid t = countType l1 mid t + countType l2 mid t := by
  simp [countType, List.filter_append]

theorem countType_single (e : HistoryEntry) (mid : Nat) (t : ChangeType) :
    countType [e] mid t = if e.memberId = mid ∧ e.changeType = t then 1 else 0 := by
  by_cases h : e.memberId = mid ∧ e.changeType = t <;> simp [countType, h]

theorem countType_single_ne (e : HistoryEntry) (mid : Nat) (t : ChangeType)
    (h : e.changeType ≠ t) : countType [e] mid t = 0 := by
  rw [countType_single, if_neg (fun hx => h hx.2)]

theorem classifyPurchases_range (tags : List String) (p : String × Nat)
    (hp : p ∈ classifyPurchases tags) : 1 ≤ p.2 ∧ p.2 ≤ 10000 := by
  unfold classifyPurchases at hp
  rw [List.mem_filterMap] at hp
  obtain ⟨a, -, ha⟩ := hp
  rcases hq : purchaseTagCredits (trimTag a) with _ | m
  · simp [hq] at ha
  · simp only [hq] at ha
    by_cases hr : 0 < m ∧ m ≤ 10000
    · rw [if_pos hr] at ha
      injection ha with ha2
      subst ha2
      exact ⟨hr.1, hr.2⟩
    · rw [if_neg hr] at ha
      cases ha

/-! ### Claim theorems -/

/-- Claim C2: under the row lock taken by `SELECT ... FOR UPDATE`, every
interleaving of two concurrent debits on the same credit account keeps the
stored balance nonnegative, and when each debit is individually affordable
at its read time but the two jointly exceed the balance, at most one of
them commits. -/
theorem claim_C2 (costA costB b0 : Int) (h0 : 0 ≤ b0) (sched : List Bool) :
    0 ≤ (spendRun costA costB (spendInit b0) sched).balance ∧
    (costA ≤ b0 → costB ≤ b0 → b0 < costA + costB →
      ¬((spendRun costA costB (spendInit b0) sched).phaseA = TxnPhase.committed ∧
        (spendRun costA costB (spendInit b0) sched).phaseB = TxnPhase.committed)) := by
  obtain ⟨-, -, hsum, hpos⟩ := spendRun_inv sched (spendInit_inv costA costB h0)
  refine ⟨hpos, fun h1 h2 h3 hboth => ?_⟩
  rw [hboth.1, hboth.2, if_pos rfl, if_pos rfl] at hsum
  omega

/-- Witness for C2 at balance 10 and costs 7 and 6, on the schedule that
lets both transactions attempt their reads. -/
theorem claim_C2_witness :
    ¬((spendRun 7 6 (spendInit 10) [true, false, true, false]).phaseA =
        TxnPhase.committed ∧
      (spendRun 7 6 (spendInit 10) [true, false, true, false]).phaseB =
        TxnPhase.committed) :=
  (claim_C2 7 6 10 (by decide) [true, false, true, false]).2
    (by decide) (by decide) (by decide)

/-- Claim C8: purchase-tag classification rejects `"0"` and `"10001"`,
accepts `"1"` and `"10000"`, maps both `"$50"` and `"50"` to 50 credits,
and any amount outside `[1, 10000]` is silently skipped (never classified,
never an error). -/
theorem claim_C8 :
    classifyPurchases [("0")] = [] ∧
    classifyPurchases [("10001")] = [] ∧
    classifyPurchases [("1")] = [(("1" : String), 1)] ∧
    classifyPurchases [("10000")] = [(("10000" : String), 10000)] ∧
    classifyPurchases [("$50")] = [(("$50" : String), 50)] ∧
    classifyPurchases [("50")] = [(("50" : String), 50)] ∧
    ∀ (tags : List String) (tag : String) (n : Nat),
      purchaseTagCredits (trimTag tag) = some n → ¬(1 ≤ n ∧ n ≤ 10000) →
        (trimTag tag, n) ∉ classifyPurchases tags := by
  refine ⟨by decide, by decide, by decide, by decide, by decide, by decide, ?_⟩
  intro tags tag n hparse hout hmem
  exact hout (classifyPurchases_range tags (trimTag tag, n) hmem)

/-- Witness for C8: the out-of-range tag `"10001"` parses to 10001 and is
skipped. -/
theorem claim_C8_witness :
    purchaseTagCredits (trimTag ("10001")) = some 10001 ∧
    ¬(1 ≤ 10001 ∧ 10001 ≤ 10000) ∧
    (trimTag ("10001"), 10001) ∉ classifyPurchases [("10001")] := by
  refine ⟨by decide, by decide, ?_⟩
  exact claim_C8.2.2.2.2.2.2 [("10001")] ("10001") 10001 (by decide) (by decide)

/-- Claim C4: a spend of cost 5 against a balance of 3 fails with the
insufficient-credits message mapped to HTTP 402; the state is returned
unchanged (balance still 3, no `app_actions` row, no history row). -/
theorem claim_C4 (st : DbState) (m : Member) (c : CreditRow) (cmid : Nat) (atype : String)
    (hm : st.members.find? (fun x => x.circleMemberId = cmid) = some m)
    (hc : st.member_credits.find? (fun x => x.memberId = m.dbId) = some c)
    (hbal : c.balance = 3) :
    spendHandler st cmid atype 5 = (st, SpendOutcome.err 402 ("Insufficient credits")) ∧
    balanceOf (spendHandler st cmid atype 5).1 m.dbId = 3 ∧
    (spendHandler st cmid atype 5).1.app_actions = st.app_actions ∧
    (spendHandler st cmid atype 5).1.credit_history = st.credit_history := by
  have hmain : spendHandler st cmid atype 5 =
      (st, SpendOutcome.err 402 ("Insufficient credits")) := by
    simp only [spendHandler, hm, hc, hbal]
    norm_num
  refine ⟨hmain, ?_, by rw [hmain], by rw [hmain]⟩
  rw [hmain]
  unfold balanceOf
  rw [hc]
  exact hbal

/-- Witness for C4 on a one-member database with balance 3. -/
theorem claim_C4_witness :
    spendHandler ⟨[⟨0, 7, false, [], 0⟩], [⟨0, 3, 0⟩], [], [], [], 1, 0⟩ 7 ("gen") 5 =
      (⟨[⟨0, 7, false, [], 0⟩], [⟨0, 3, 0⟩], [], [], [], 1, 0⟩,
        SpendOutcome.err 402 ("Insufficient credits")) :=
  (claim_C4 ⟨[⟨0, 7, false, [], 0⟩], [⟨0, 3, 0⟩], [], [], [], 1, 0⟩ ⟨0, 7, false, [], 0⟩
    ⟨0, 3, 0⟩ 7 ("gen") (by decide) (by decide) (by decide)).1

/-- Claim C10: a spend whose cost exactly equals the stored balance
succeeds (the insufficiency check is strict less-than), leaves a balance of
exactly 0, and writes one `app_actions` row and one `action_cost` history
row. -/
theorem claim_C10 (st : DbState) (m : Member) (c : CreditRow) (cmid : Nat) (atype : String)
    (hm : st.members.find? (fun x => x.circleMemberId = cmid) = some m)
    (hc : st.member_credits.find? (fun x => x.memberId = m.dbId) = some c) :
    (spendHandler st cmid atype c.balance).2 =
      SpendOutcome.ok st.nextActionId c.balance 0 ∧
    balanceOf (spendHandler st cmid atype c.balance).1 m.dbId = 0 ∧
    (spendHandler st cmid atype c.balance).1.app_actions =
      st.app_actions ++ [⟨st.nextActionId, m.dbId, atype, c.balance, true⟩] ∧
    countType (spendHandler st cmid atype c.balance).1.credit_history m.dbId .action_cost =
      countType st.credit_history m.dbId .action_cost + 1 := by
  have hnlt : ¬(c.balance < c.balance) := lt_irrefl _
  simp only [spendHandler, hm, hc, if_neg hnlt, sub_self]
  refine ⟨?_, ?_, ?_, ?_⟩
  · rw [updateCreditsBalance_nextActionId]
  · show balanceOf (updateCreditsBalance st m.dbId 0 none) m.dbId = 0
    rw [balanceOf_eq _ _ _ (updateCreditsBalance_find? st m.dbId 0 none c hc)]
  · rw [updateCreditsBalance_app_actions, updateCreditsBalance_nextActionId]
    rfl
  · rw [appendHistory_history]
    dsimp only
    rw [updateCreditsBalance_history st m.dbId 0 none c hc]
    rw [countType_append, countType_append, updateCreditsBalance_nextActionId]
    have htrig : countType (if c.balance = 0 then []
        else [trigUpdateEntry m.dbId c.balance 0]) m.dbId ChangeType.action_cost = 0 := by
      by_cases hz : c.balance = 0
      · simp [hz, countType]
      · rw [if_neg hz]
        refine countType_single_ne _ _ _ ?_
        unfold trigUpdateEntry
        show (if c.balance < 0 then ChangeType.credit_addition
          else ChangeType.credit_deduction) ≠ ChangeType.action_cost
        split <;> simp
    have hone : countType [actionCostEntry m.dbId c.balance 0 st.nextActionId atype]
        m.dbId ChangeType.action_cost = 1 := by
      rw [countType_single]
      exact if_pos ⟨rfl, rfl⟩
    rw [htrig, hone]

/-- Witness for C10: balance 4, cost 4. -/
theorem claim_C10_witness :
    (spendHandler ⟨[⟨0, 7, false, [], 0⟩], [⟨0, 4, 0⟩], [], [], [], 1, 3⟩ 7 ("gen")
        (CreditRow.balance ⟨0, 4, 0⟩)).2 =
      SpendOutcome.ok 3 (CreditRow.balance ⟨0, 4, 0⟩) 0 :=
  (claim_C10 ⟨[⟨0, 7, false, [], 0⟩], [⟨0, 4, 0⟩], [], [], [], 1, 3⟩ ⟨0, 7, false, [], 0⟩
    ⟨0, 4, 0⟩ 7 ("gen") (by decide) (by decide)).1

/-- Claim C9: for a member present in `members` but with no
`member_credits` row, the admin bonus adjustment does not 404: it appends
one `admin_bonus` history row whose `balance_after` equals the bonus,
while creating or updating no credit row, and reports a current balance of
0. -/
theorem claim_C9 (cfg : Config) (st : DbState) (m : Member) (cmid : Nat)
    (bonus now : Int) (email : String)
    (hm : st.members.find? (fun x => x.circleMemberId = cmid) = some m)
    (hc : st.member_credits.find? (fun x => x.memberId = m.dbId) = none)
    (hb : bonus > 0) :
    (adminRefreshCredits cfg st cmid bonus false now email).2 =
      ⟨200, 0, bonus, 0⟩ ∧
    (adminRefreshCredits cfg st cmid bonus false now email).1.member_credits =
      st.member_credits ∧
    (adminRefreshCredits cfg st cmid bonus false now email).1.credit_history =
      st.credit_history ++ [adminBonusEntry m.dbId bonus bonus email] := by
  simp only [adminRefreshCredits, hm, hc, if_pos hb,
    updateCreditsBalance_none st m.dbId hc, Option.map_none, Option.getD_none, zero_add,
    Bool.false_eq_true, if_false, appendHistory]
  exact ⟨rfl, trivial, by simp⟩

/-- Witness for C9: one member, empty credit table, bonus 25. -/
theorem claim_C9_witness :
    (adminRefreshCredits ⟨100, 10, 100, 10, []⟩
        ⟨[⟨0, 7, false, [], 0⟩], [], [], [], [], 1, 0⟩ 7 25 false 0 ("a@b.c")).2 =
      ⟨200, 0, 25, 0⟩ :=
  (claim_C9 ⟨100, 10, 100, 10, []⟩ ⟨[⟨0, 7, false, [], 0⟩], [], [], [], [], 1, 0⟩
    ⟨0, 7, false, [], 0⟩ 7 25 0 ("a@b.c") (by decide) (by decide) (by decide)).1

theorem runPTOps_none_eq (ops : List PTOp) (st : DbState) :
    runPTOps st ops none = some (ops.foldl applyPTOp st) := by
  induction ops generalizing st with
  | nil => rfl
  | cons op rest ih => rw [runPTOps, List.foldl_cons, ih]

theorem runPTOps_fail (ops : List PTOp) (st : DbState) (k : Nat) (h : k < ops.length) :
    runPTOps st ops (some k) = none := by
  induction ops generalizing st k with
  | nil => cases h
  | cons op rest ih =>
      cases k with
      | zero => rfl
      | succ n => exact ih (applyPTOp st op) n (by simpa using h)

/-- Claim C3: settling the purchase tags `["$10", "$25"]` performs one
balance update adding 35, appends exactly two `purchase` history rows of
amounts 10 and 25, writes exactly two `processed_purchase_tags` rows; and
when the transaction fails at any of its five statements, the rollback
leaves the database state completely unchanged. -/
theorem claim_C3 (st : DbState) (mid : Nat) (c : CreditRow)
    (hc : st.member_credits.find? (fun x => x.memberId = mid) = some c) :
    (purchasePhase st mid [("$10"), ("$25")] c.balance none).2 = c.balance + 35 ∧
    balanceOf (purchasePhase st mid [("$10"), ("$25")] c.balance none).1 mid =
      c.balance + 35 ∧
    (purchasePhase st mid [("$10"), ("$25")] c.balance none).1.processed_purchase_tags =
      st.processed_purchase_tags ++ [⟨mid, ("$10"), 10⟩, ⟨mid, ("$25"), 25⟩] ∧
    (purchasePhase st mid [("$10"), ("$25")] c.balance none).1.credit_history.filter
        (fun e => decide (e.memberId = mid ∧ e.changeType = ChangeType.purchase)) =
      st.credit_history.filter
        (fun e => decide (e.memberId = mid ∧ e.changeType = ChangeType.purchase)) ++
        [purchaseEntry mid 10 (c.balance + 35) ("$10"),
         purchaseEntry mid 25 (c.balance + 35) ("$25")] ∧
    (∀ k, k < 5 → purchasePhase st mid [("$10"), ("$25")] c.balance (some k) =
      (st, c.balance)) := by
  have hcl : classifyPurchases [("$10"), ("$25")] =
      [(("$10" : String), 10), (("$25" : String), 25)] := by decide
  have hops : purchaseOps mid [(("$10" : String), 10), (("$25" : String), 25)]
      (c.balance + 35) =
      [PTOp.updateBalance mid (c.balance + 35),
       PTOp.insertTag mid ("$10") 10,
       PTOp.insertHist mid 10 (c.balance + 35) ("$10"),
       PTOp.insertTag mid ("$25") 25,
       PTOp.insertHist mid 25 (c.balance + 35) ("$25")] := by
    simp [purchaseOps]
  have hsum : ((([(("$10" : String), 10), (("$25" : String), 25)]).map
      (fun p => (p.2 : Int))).sum) = 35 := by norm_num
  have hmain : ∀ f, purchasePhase st mid [("$10"), ("$25")] c.balance f =
      (match runPTOps st (purchaseOps mid [(("$10" : String), 10), (("$25" : String), 25)]
          (c.balance + 35)) f with
        | some st1 => (st1, c.balance + 35)
        | none => (st, c.balance)) := by
    intro f
    rw [purchasePhase]
    rw [hcl]
    norm_num
  refine ⟨?_, ?_, ?_, ?_, ?_⟩
  · rw [hmain, hops, runPTOps_none_eq]
  · rw [hmain, hops, runPTOps_none_eq]
    simp only [List.foldl_cons, List.foldl_nil, applyPTOp]
    show balanceOf (updateCreditsBalance st mid (c.balance + 35) none) mid = c.balance + 35
    rw [balanceOf_eq _ _ _ (updateCreditsBalance_find? st mid (c.balance + 35) none c hc)]
  · rw [hmain, hops, runPTOps_none_eq]
    simp only [List.foldl_cons, List.foldl_nil, applyPTOp, appendHistory]
    show ((updateCreditsBalance st mid (c.balance + 35) none).processed_purchase_tags ++
        [⟨mid, ("$10"), 10⟩]) ++ [⟨mid, ("$25"), 25⟩] =
      st.processed_purchase_tags ++ [⟨mid, ("$10"), 10⟩, ⟨mid, ("$25"), 25⟩]
    rw [updateCreditsBalance_ppt]
    simp
  · rw [hmain, hops, runPTOps_none_eq]
    simp only [List.foldl_cons, List.foldl_nil, applyPTOp, appendHistory]
    show (((updateCreditsBalance st mid (c.balance + 35) none).credit_history ++
        [purchaseEntry mid 10 (c.balance + 35) ("$10")]) ++
        [purchaseEntry mid 25 (c.balance + 35) ("$25")]).filter
        (fun e => decide (e.memberId = mid ∧ e.changeType = ChangeType.purchase)) = _
    rw [updateCreditsBalance_history st mid (c.balance + 35) none c hc]
    have hne : (trigUpdateEntry mid c.balance (c.balance + 35)).changeType ≠
        ChangeType.purchase := by
      unfold trigUpdateEntry
      show (if c.balance < c.balance + 35 then ChangeType.credit_addition
        else ChangeType.credit_deduction) ≠ ChangeType.purchase
      split <;> simp
    have htrig : (if c.balance = c.balance + 35 then []
        else [trigUpdateEntry mid c.balance (c.balance + 35)]).filter
        (fun e => decide (e.memberId = mid ∧ e.changeType = ChangeType.purchase)) = [] := by
      by_cases hz : c.balance = c.balance + 35
      · rw [if_pos hz]
        rfl
      · rw [if_neg hz]
        refine List.filter_eq_nil_iff.mpr ?_
        intro e he
        rw [List.mem_singleton] at he
        subst he
        simp [hne]
    simp only [List.filter_append, htrig]
    have h10 : (List.filter (fun e => decide (e.memberId = mid ∧
        e.changeType = ChangeType.purchase)) [purchaseEntry mid 10 (c.balance + 35) ("$10")]) =
        [purchaseEntry mid 10 (c.balance + 35) ("$10")] := by
      simp [purchaseEntry]
    have h25 : (List.filter (fun e => decide (e.memberId = mid ∧
        e.changeType = ChangeType.purchase)) [purchaseEntry mid 25 (c.balance + 35) ("$25")]) =
        [purchaseEntry mid 25 (c.balance + 35) ("$25")] := by
      simp [purchaseEntry]
    rw [h10, h25]
    simp
  · intro k hk
    rw [hmain, hops, runPTOps_fail _ _ _ (by simpa using hk)]

/-- Witness for C3 on a one-row credit table with balance 40. -/
theorem claim_C3_witness :
    (purchasePhase ⟨[⟨0, 7, false, [], 0⟩], [⟨0, 40, 0⟩], [], [], [], 1, 0⟩ 0
        [("$10"), ("$25")] (CreditRow.balance ⟨0, 40, 0⟩) none).2 =
      CreditRow.balance ⟨0, 40, 0⟩ + 35 :=
  (claim_C3 ⟨[⟨0, 7, false, [], 0⟩], [⟨0, 40, 0⟩], [], [], [], 1, 0⟩ 0 ⟨0, 40, 0⟩
    (by decide)).1

theorem upsertExisting_mc (st : DbState) (cmid : Nat) (p : Bool) (tags : List String) :
    (upsertExisting st cmid p tags).member_credits = st.member_credits := rfl

theorem upsertExisting_history (st : DbState) (cmid : Nat) (p : Bool) (tags : List String) :
    (upsertExisting st cmid p tags).credit_history = st.credit_history := rfl

theorem insertNewMember_mc (st : DbState) (cmid : Nat) (p : Bool) (tags : List String)
    (now : Int) : (insertNewMember st cmid p tags now).member_credits = st.member_credits := rfl

theorem insertNewMember_history (st : DbState) (cmid : Nat) (p : Bool) (tags : List String)
    (now : Int) : (insertNewMember st cmid p tags now).credit_history = st.credit_history := rfl

/-- When no tag classifies as a purchase, the settlement block is a no-op. -/
theorem purchasePhase_nil (st : DbState) (mid : Nat) (tags : List String) (crb : Int)
    (f : Option Nat) (h : classifyPurchases tags = []) :
    purchasePhase st mid tags crb f = (st, crb) := by
  unfold purchasePhase
  rw [h]
  simp

/-- The returning-member branch on a free-to-paid transition with no
refresh due: one upgrade-bonus update and history row. -/
theorem returningStep_bonus_only (cfg : Config) (st : DbState) (mid : Nat)
    (tagsCh : Bool) (rec : CreditRow) (now oma : Int)
    (hnoref : ¬(rec.lastRefreshedAt < oma)) :
    returningStep cfg st mid false true tagsCh rec now oma =
      (appendHistory
        (updateCreditsBalance st mid
          (rec.balance + (cfg.initialCreditsPaid - cfg.initialCreditsFree)) none)
        (upgradeBonusEntry mid (cfg.initialCreditsPaid - cfg.initialCreditsFree)
          (rec.balance + (cfg.initialCreditsPaid - cfg.initialCreditsFree))),
       rec.balance + (cfg.initialCreditsPaid - cfg.initialCreditsFree)) := by
  have hcond : (((false != true) || tagsCh) && (!false && true)) = true := by simp
  unfold returningStep
  dsimp only
  rw [if_pos hcond, if_neg hnoref]

/-- The returning-member branch with unchanged paid status and a refresh
due: one additive refresh update and history row. -/
theorem returningStep_refresh_only (cfg : Config) (st : DbState) (mid : Nat)
    (b tagsCh : Bool) (rec : CreditRow) (now oma : Int)
    (href : rec.lastRefreshedAt < oma) :
    returningStep cfg st mid b b tagsCh rec now oma =
      (appendHistory
        (updateCreditsBalance st mid
          (rec.balance + (if b then cfg.monthlyCreditsPaid else cfg.monthlyCreditsFree))
          (some now))
        (monthlyRefreshEntry mid
          (if b then cfg.monthlyCreditsPaid else cfg.monthlyCreditsFree)
          (rec.balance + (if b then cfg.monthlyCreditsPaid else cfg.monthlyCreditsFree)) b),
       rec.balance + (if b then cfg.monthlyCreditsPaid else cfg.monthlyCreditsFree)) := by
  have hcond : (((b != b) || tagsCh) && (!b && b)) = false := by cases b <;> simp
  unfold returningStep
  dsimp only
  rw [hcond]
  simp only [Bool.false_eq_true, if_false, if_pos href, ite_self]

/-- The returning-member branch with unchanged paid status and no refresh
due is a no-op. -/
theorem returningStep_idle (cfg : Config) (st : DbState) (mid : Nat)
    (b tagsCh : Bool) (rec : CreditRow) (now oma : Int)
    (hnoref : ¬(rec.lastRefreshedAt < oma)) :
    returningStep cfg st mid b b tagsCh rec now oma = (st, rec.balance) := by
  have hcond : (((b != b) || tagsCh) && (!b && b)) = false := by cases b <;> simp
  unfold returningStep
  dsimp only
  rw [hcond]
  simp only [Bool.false_eq_true, if_false, if_neg hnoref]

/-- Shape of a `POST /api/auth` event for an existing, non-new member:
pre-upsert snapshot, member update, returning-member credit branch,
purchase settlement. -/
theorem processAuth_returning (cfg : Config) (st : DbState) (ev : AuthEvent)
    (m : Member) (rec : CreditRow)
    (hm : st.members.find? (fun x => x.circleMemberId = ev.circleMemberId) = some m)
    (hnew : ¬(ev.now - m.firstSeenAt < 30000))
    (hrec : st.member_credits.find? (fun x => x.memberId = m.dbId) = some rec) :
    processAuth cfg st ev =
      (purchasePhase
        (returningStep cfg
          (upsertExisting st ev.circleMemberId (isPaidOf cfg ev.tags) ev.tags)
          m.dbId m.isPaid (isPaidOf cfg ev.tags) (decide (m.tags ≠ ev.tags)) rec
          ev.now ev.oneMonthAgo).1
        m.dbId ev.tags
        (returningStep cfg
          (upsertExisting st ev.circleMemberId (isPaidOf cfg ev.tags) ev.tags)
          m.dbId m.isPaid (isPaidOf cfg ev.tags) (decide (m.tags ≠ ev.tags)) rec
          ev.now ev.oneMonthAgo).2
        ev.purchaseFailAt).1 := by
  unfold processAuth
  rw [hm]
  dsimp only
  rw [show (upsertExisting st ev.circleMemberId (isPaidOf cfg ev.tags) ev.tags).member_credits
    = st.member_credits from rfl]
  rw [hrec]
  dsimp only
  rw [if_neg hnew]
  exact rfl

/-- Shape of a `POST /api/auth` event for a brand-new member: member
insert, initial grant, purchase settlement. -/
theorem processAuth_new (cfg : Config) (st : DbState) (ev : AuthEvent)
    (hm : st.members.find? (fun x => x.circleMemberId = ev.circleMemberId) = none)
    (hcred : st.member_credits.find? (fun x => x.memberId = st.nextMemberId) = none) :
    processAuth cfg st ev =
      (purchasePhase
        (initialGrantStep cfg
          (insertNewMember st ev.circleMemberId (isPaidOf cfg ev.tags) ev.tags ev.now)
          st.nextMemberId (isPaidOf cfg ev.tags) ev.now).1
        st.nextMemberId ev.tags
        (initialGrantStep cfg
          (insertNewMember st ev.circleMemberId (isPaidOf cfg ev.tags) ev.tags ev.now)
          st.nextMemberId (isPaidOf cfg ev.tags) ev.now).2
        ev.purchaseFailAt).1 := by
  unfold processAuth
  rw [hm]
  dsimp only
  rw [show (insertNewMember st ev.circleMemberId (isPaidOf cfg ev.tags) ev.tags
    ev.now).member_credits = st.member_credits from rfl]
  rw [hcred]

/-- The `ON CONFLICT` insert takes the plain-insert path when no credit
row exists, firing the trigger's insert branch. -/
theorem insertOrUpdateCredits_insert (st : DbState) (mid : Nat) (bal : Int) (rAt : Int)
    (h : st.member_credits.find? (fun x => x.memberId = mid) = none) :
    insertOrUpdateCredits st mid bal rAt =
      appendHistory
        { st with member_credits := st.member_credits ++ [⟨mid, bal, rAt⟩] }
        (trigInsertEntry mid bal) := by
  unfold insertOrUpdateCredits log_credit_change_insert
  rw [h]

theorem countType_trigIf (mid2 mid : Nat) (o n : Int) (t : ChangeType)
    (h2 : t ≠ ChangeType.credit_addition) (h3 : t ≠ ChangeType.credit_deduction) :
    countType (if o = n then [] else [trigUpdateEntry mid2 o n]) mid t = 0 := by
  by_cases hz : o = n
  · simp [hz, countType]
  · rw [if_neg hz]
    refine countType_single_ne _ _ _ ?_
    unfold trigUpdateEntry
    show (if o < n then ChangeType.credit_addition else ChangeType.credit_deduction) ≠ t
    split
    · exact fun hh => h2 hh.symm
    · exact fun hh => h3 hh.symm

theorem filter_trigIf (mid2 mid : Nat) (o n : Int) (t : ChangeType)
    (h2 : t ≠ ChangeType.credit_addition) (h3 : t ≠ ChangeType.credit_deduction) :
    (if o = n then [] else [trigUpdateEntry mid2 o n]).filter
      (fun e => decide (e.memberId = mid ∧ e.changeType = t)) = [] := by
  have hne : (trigUpdateEntry mid2 o n).changeType ≠ t := by
    unfold trigUpdateEntry
    show (if o < n then ChangeType.credit_addition else ChangeType.credit_deduction) ≠ t
    split
    · exact fun hh => h2 hh.symm
    · exact fun hh => h3 hh.symm
  by_cases hz : o = n
  · rw [if_pos hz]
    rfl
  · rw [if_neg hz]
    simp [hne]

theorem filter_single_ne (e : HistoryEntry) (mid : Nat) (t : ChangeType)
    (h : e.changeType ≠ t) :
    ([e]).filter (fun x => decide (x.memberId = mid ∧ x.changeType = t)) = [] := by
  simp [h]

/-- Claim C5: for an existing, non-new member whose pre-upsert snapshot is
unpaid and whose current classification is paid, the event appends exactly
one `upgrade_bonus` history row of amount
`INITIAL_CREDITS_PAID − INITIAL_CREDITS_FREE` and adds that amount to the
balance (stated for an event with no refresh due and no purchase tags);
and an event whose current classification equals the pre-upsert snapshot
(in particular a subsequent event with unchanged paid status) appends no
`upgrade_bonus` row.  The transition is detected against the snapshot read
before the member upsert. -/
theorem claim_C5 (cfg : Config) (st : DbState) (ev : AuthEvent) (m : Member)
    (rec : CreditRow)
    (hm : st.members.find? (fun x => x.circleMemberId = ev.circleMemberId) = some m)
    (hnew : ¬(ev.now - m.firstSeenAt < 30000))
    (hrec : st.member_credits.find? (fun x => x.memberId = m.dbId) = some rec)
    (hprev : m.isPaid = false)
    (hcur : isPaidOf cfg ev.tags = true)
    (hnoref : ¬(rec.lastRefreshedAt < ev.oneMonthAgo))
    (hnop : classifyPurchases ev.tags = []) :
    (processAuth cfg st ev).credit_history.filter
        (fun e => decide (e.memberId = m.dbId ∧ e.changeType = ChangeType.upgrade_bonus)) =
      st.credit_history.filter
        (fun e => decide (e.memberId = m.dbId ∧ e.changeType = ChangeType.upgrade_bonus)) ++
      [upgradeBonusEntry m.dbId (cfg.initialCreditsPaid - cfg.initialCreditsFree)
        (rec.balance + (cfg.initialCreditsPaid - cfg.initialCreditsFree))] ∧
    balanceOf (processAuth cfg st ev) m.dbId =
      rec.balance + (cfg.initialCreditsPaid - cfg.initialCreditsFree) ∧
    (∀ (st2 : DbState) (ev2 : AuthEvent) (m2 : Member) (rec2 : CreditRow),
      st2.members.find? (fun x => x.circleMemberId = ev2.circleMemberId) = some m2 →
      ¬(ev2.now - m2.firstSeenAt < 30000) →
      st2.member_credits.find? (fun x => x.memberId = m2.dbId) = some rec2 →
      m2.isPaid = isPaidOf cfg ev2.tags →
      classifyPurchases ev2.tags = [] →
      countType (processAuth cfg st2 ev2).credit_history m2.dbId ChangeType.upgrade_bonus =
        countType st2.credit_history m2.dbId ChangeType.upgrade_bonus) := by
  have hrecU : (upsertExisting st ev.circleMemberId (isPaidOf cfg ev.tags)
      ev.tags).member_credits.find? (fun x => x.memberId = m.dbId) = some rec := by
    rw [upsertExisting_mc]
    exact hrec
  refine ⟨?_, ?_, ?_⟩
  · rw [processAuth_returning cfg st ev m rec hm hnew hrec, hprev, hcur]
    rw [returningStep_bonus_only _ _ _ _ _ _ _ hnoref]
    rw [purchasePhase_nil _ _ _ _ _ hnop]
    dsimp only
    rw [appendHistory_history]
    rw [updateCreditsBalance_history _ _ _ _ rec (by rw [hcur] at hrecU; exact hrecU)]
    rw [upsertExisting_history]
    rw [List.filter_append, List.filter_append]
    rw [filter_trigIf _ _ _ _ _ (by simp) (by simp)]
    rw [show ([upgradeBonusEntry m.dbId (cfg.initialCreditsPaid - cfg.initialCreditsFree)
        (rec.balance + (cfg.initialCreditsPaid - cfg.initialCreditsFree))]).filter
        (fun e => decide (e.memberId = m.dbId ∧ e.changeType = ChangeType.upgrade_bonus)) =
      [upgradeBonusEntry m.dbId (cfg.initialCreditsPaid - cfg.initialCreditsFree)
        (rec.balance + (cfg.initialCreditsPaid - cfg.initialCreditsFree))] from by
      simp [upgradeBonusEntry]]
    simp
  · rw [processAuth_returning cfg st ev m rec hm hnew hrec, hprev, hcur]
    rw [returningStep_bonus_only _ _ _ _ _ _ _ hnoref]
    rw [purchasePhase_nil _ _ _ _ _ hnop]
    dsimp only
    rw [balanceOf_eq _ _ _ (by
        rw [appendHistory_mc]
        exact updateCreditsBalance_find? _ m.dbId
          (rec.balance + (cfg.initialCreditsPaid - cfg.initialCreditsFree)) none rec
          (by rw [hcur] at hrecU; exact hrecU))]
  · intro st2 ev2 m2 rec2 hm2 hnew2 hrec2 hsame hnop2
    have hrecU2 : (upsertExisting st2 ev2.circleMemberId (isPaidOf cfg ev2.tags)
        ev2.tags).member_credits.find? (fun x => x.memberId = m2.dbId) = some rec2 := by
      rw [upsertExisting_mc]
      exact hrec2
    rw [processAuth_returning cfg st2 ev2 m2 rec2 hm2 hnew2 hrec2, hsame]
    by_cases hr : rec2.lastRefreshedAt < ev2.oneMonthAgo
    · rw [returningStep_refresh_only _ _ _ _ _ _ _ _ hr]
      rw [purchasePhase_nil _ _ _ _ _ hnop2]
      dsimp only
      rw [appendHistory_history]
      rw [updateCreditsBalance_history _ _ _ _ rec2 hrecU2]
      rw [upsertExisting_history]
      rw [countType_append, countType_append]
      rw [countType_trigIf _ _ _ _ _ (by simp) (by simp)]
      rw [countType_single_ne _ _ _ (by
        unfold monthlyRefreshEntry
        show ChangeType.monthly_refresh ≠ ChangeType.upgrade_bonus
        simp)]
      omega
    · rw [returningStep_idle _ _ _ _ _ _ _ _ hr]
      rw [purchasePhase_nil _ _ _ _ _ hnop2]
      dsimp only
      rw [upsertExisting_history]

/-- Witness for C5: a free member with balance 40 upgrading to paid. -/
theorem claim_C5_witness :
    balanceOf (processAuth ⟨100, 10, 30, 5, [("paid")]⟩
      ⟨[⟨0, 7, false, [], 0⟩], [⟨0, 40, 100⟩], [], [], [], 1, 0⟩
      ⟨7, [("paid")], 10000000, 50, none⟩) 0 = 40 + (100 - 10) :=
  (claim_C5 ⟨100, 10, 30, 5, [("paid")]⟩
    ⟨[⟨0, 7, false, [], 0⟩], [⟨0, 40, 100⟩], [], [], [], 1, 0⟩
    ⟨7, [("paid")], 10000000, 50, none⟩ ⟨0, 7, false, [], 0⟩ ⟨0, 40, 100⟩
    (by decide) (by decide) (by decide) (by decide) (by decide) (by decide)
    (by decide)).2.1

/-- The stored `last_refreshed_at` of a member's credit row. -/
def lastRefreshedOf (st : DbState) (mid : Nat) : Option Int :=
  (st.member_credits.find? (fun c => c.memberId = mid)).map (fun c => c.lastRefreshedAt)

/-- Counterexample to claim C6 as stated: with `last_refreshed_at` exactly
equal to the one-month-ago mark (so that now minus it is at least one
calendar month), the code appends no `monthly_refresh` row, because the
comparison at server.js line 603 is strict. -/
theorem claim_C6_counterexample :
    ¬((CreditRow.lastRefreshedAt ⟨0, 40, 100⟩ ≤
        AuthEvent.oneMonthAgo ⟨7, [], 10000000, 100, none⟩) →
      countType (processAuth ⟨100, 10, 30, 5, []⟩
          ⟨[⟨0, 7, false, [], 0⟩], [⟨0, 40, 100⟩], [], [], [], 1, 0⟩
          ⟨7, [], 10000000, 100, none⟩).credit_history 0
        ChangeType.monthly_refresh = 1) := by
  decide

/-- Claim C6 as amended: for an existing, non-new member with unchanged
paid status and no purchase tags, a `monthly_refresh` row is appended iff
`last_refreshed_at` is strictly before the one-month-ago mark (strictly
more than one calendar month since the last refresh); when it fires the
balance becomes the old balance plus the configured monthly amount
(additive) and `last_refreshed_at` advances to now; when it does not fire
the ledger is untouched. -/
theorem claim_C6 (cfg : Config) (st : DbState) (ev : AuthEvent) (m : Member)
    (rec : CreditRow)
    (hm : st.members.find? (fun x => x.circleMemberId = ev.circleMemberId) = some m)
    (hnew : ¬(ev.now - m.firstSeenAt < 30000))
    (hrec : st.member_credits.find? (fun x => x.memberId = m.dbId) = some rec)
    (hsame : m.isPaid = isPaidOf cfg ev.tags)
    (hnop : classifyPurchases ev.tags = []) :
    countType (processAuth cfg st ev).credit_history m.dbId ChangeType.monthly_refresh =
      countType st.credit_history m.dbId ChangeType.monthly_refresh +
        (if rec.lastRefreshedAt < ev.oneMonthAgo then 1 else 0) ∧
    (rec.lastRefreshedAt < ev.oneMonthAgo →
      balanceOf (processAuth cfg st ev) m.dbId =
        rec.balance + (if isPaidOf cfg ev.tags then cfg.monthlyCreditsPaid
          else cfg.monthlyCreditsFree) ∧
      lastRefreshedOf (processAuth cfg st ev) m.dbId = some ev.now) ∧
    (¬(rec.lastRefreshedAt < ev.oneMonthAgo) →
      balanceOf (processAuth cfg st ev) m.dbId = rec.balance ∧
      (processAuth cfg st ev).credit_history = st.credit_history) := by
  have hrecU : (upsertExisting st ev.circleMemberId (isPaidOf cfg ev.tags)
      ev.tags).member_credits.find? (fun x => x.memberId = m.dbId) = some rec := by
    rw [upsertExisting_mc]
    exact hrec
  refine ⟨?_, ?_, ?_⟩
  · rw [processAuth_returning cfg st ev m rec hm hnew hrec, hsame]
    by_cases hr : rec.lastRefreshedAt < ev.oneMonthAgo
    · rw [returningStep_refresh_only _ _ _ _ _ _ _ _ hr]
      rw [purchasePhase_nil _ _ _ _ _ hnop]
      dsimp only
      rw [appendHistory_history]
      rw [updateCreditsBalance_history _ _ _ _ rec hrecU]
      rw [upsertExisting_history]
      rw [countType_append, countType_append]
      rw [countType_trigIf _ _ _ _ _ (by simp) (by simp)]
      rw [countType_single _ m.dbId ChangeType.monthly_refresh, if_pos ⟨rfl, rfl⟩]
      rw [if_pos hr]
    · rw [returningStep_idle _ _ _ _ _ _ _ _ hr]
      rw [purchasePhase_nil _ _ _ _ _ hnop]
      dsimp only
      rw [upsertExisting_history]
      rw [if_neg hr]
      omega
  · intro hr
    rw [processAuth_returning cfg st ev m rec hm hnew hrec, hsame]
    rw [returningStep_refresh_only _ _ _ _ _ _ _ _ hr]
    rw [purchasePhase_nil _ _ _ _ _ hnop]
    dsimp only
    constructor
    · rw [balanceOf_eq _ _ _ (by
        rw [appendHistory_mc]
        exact updateCreditsBalance_find? _ m.dbId
          (rec.balance + (if isPaidOf cfg ev.tags then cfg.monthlyCreditsPaid
            else cfg.monthlyCreditsFree)) (some ev.now) rec hrecU)]
    · unfold lastRefreshedOf
      rw [show (appendHistory (updateCreditsBalance
          (upsertExisting st ev.circleMemberId (isPaidOf cfg ev.tags) ev.tags) m.dbId
          (rec.balance + (if isPaidOf cfg ev.tags then cfg.monthlyCreditsPaid
            else cfg.monthlyCreditsFree)) (some ev.now))
          (monthlyRefreshEntry m.dbId
            (if isPaidOf cfg ev.tags then cfg.monthlyCreditsPaid else cfg.monthlyCreditsFree)
            (rec.balance + (if isPaidOf cfg ev.tags then cfg.monthlyCreditsPaid
              else cfg.monthlyCreditsFree)) (isPaidOf cfg ev.tags))).member_credits =
        (updateCreditsBalance
          (upsertExisting st ev.circleMemberId (isPaidOf cfg ev.tags) ev.tags) m.dbId
          (rec.balance + (if isPaidOf cfg ev.tags then cfg.monthlyCreditsPaid
            else cfg.monthlyCreditsFree)) (some ev.now)).member_credits from rfl]
      rw [updateCreditsBalance_find? _ m.dbId
        (rec.balance + (if isPaidOf cfg ev.tags then cfg.monthlyCreditsPaid
          else cfg.monthlyCreditsFree)) (some ev.now) rec hrecU]
      rfl
  · intro hr
    rw [processAuth_returning cfg st ev m rec hm hnew hrec, hsame]
    rw [returningStep_idle _ _ _ _ _ _ _ _ hr]
    rw [purchasePhase_nil _ _ _ _ _ hnop]
    dsimp only
    exact ⟨balanceOf_eq _ _ _ hrecU, upsertExisting_history _ _ _ _⟩

/-- Witness for the amended C6: a member whose last refresh is strictly
older than one month receives exactly one refresh entry. -/
theorem claim_C6_witness :
    countType (processAuth ⟨100, 10, 30, 5, []⟩
        ⟨[⟨0, 7, false, [], 0⟩], [⟨0, 40, 100⟩], [], [], [], 1, 0⟩
        ⟨7, [], 10000000, 101, none⟩).credit_history 0 ChangeType.monthly_refresh =
      countType (DbState.credit_history
          ⟨[⟨0, 7, false, [], 0⟩], [⟨0, 40, 100⟩], [], [], [], 1, 0⟩) 0
        ChangeType.monthly_refresh +
        (if CreditRow.lastRefreshedAt ⟨0, 40, 100⟩ <
            AuthEvent.oneMonthAgo ⟨7, [], 10000000, 101, none⟩ then 1 else 0) :=
  (claim_C6 ⟨100, 10, 30, 5, []⟩
    ⟨[⟨0, 7, false, [], 0⟩], [⟨0, 40, 100⟩], [], [], [], 1, 0⟩
    ⟨7, [], 10000000, 101, none⟩ ⟨0, 7, false, [], 0⟩ ⟨0, 40, 100⟩
    (by decide) (by decide) (by decide) (by decide) (by decide)).1

/-- Counterexample to claim C7 as stated: a brand-new member receives two
`initial_grant` history rows, not one, because the schema's
`log_credit_change` trigger also logs the insert of the credit row. -/
theorem claim_C7_counterexample :
    ¬(countType (processAuth ⟨100, 10, 30, 5, []⟩ ⟨[], [], [], [], [], 0, 0⟩
        ⟨7, [], 1000000, 500000, none⟩).credit_history 0
      ChangeType.initial_grant = 1) := by
  decide

/-- Claim C7 as amended: one authentication event for a brand-new member
appends exactly two `initial_grant` rows (one written by the application,
one by the schema trigger on the credit-row insert) and no
`monthly_refresh` and no `upgrade_bonus` row. -/
theorem claim_C7 (cfg : Config) (st : DbState) (ev : AuthEvent)
    (hm : st.members.find? (fun x => x.circleMemberId = ev.circleMemberId) = none)
    (hcred : st.member_credits.find? (fun x => x.memberId = st.nextMemberId) = none)
    (hnop : classifyPurchases ev.tags = []) :
    (processAuth cfg st ev).credit_history =
      st.credit_history ++
        [trigInsertEntry st.nextMemberId
          (if isPaidOf cfg ev.tags then cfg.initialCreditsPaid else cfg.initialCreditsFree),
         initialGrantEntry st.nextMemberId
          (if isPaidOf cfg ev.tags then cfg.initialCreditsPaid else cfg.initialCreditsFree)
          (isPaidOf cfg ev.tags)] ∧
    countType (processAuth cfg st ev).credit_history st.nextMemberId
        ChangeType.initial_grant =
      countType st.credit_history st.nextMemberId ChangeType.initial_grant + 2 ∧
    countType (processAuth cfg st ev).credit_history st.nextMemberId
        ChangeType.monthly_refresh =
      countType st.credit_history st.nextMemberId ChangeType.monthly_refresh ∧
    countType (processAuth cfg st ev).credit_history st.nextMemberId
        ChangeType.upgrade_bonus =
      countType st.credit_history st.nextMemberId ChangeType.upgrade_bonus := by
  have hmain : (processAuth cfg st ev).credit_history =
      st.credit_history ++
        [trigInsertEntry st.nextMemberId
          (if isPaidOf cfg ev.tags then cfg.initialCreditsPaid else cfg.initialCreditsFree),
         initialGrantEntry st.nextMemberId
          (if isPaidOf cfg ev.tags then cfg.initialCreditsPaid else cfg.initialCreditsFree)
          (isPaidOf cfg ev.tags)] := by
    rw [processAuth_new cfg st ev hm hcred]
    rw [purchasePhase_nil _ _ _ _ _ hnop]
    dsimp only
    unfold initialGrantStep
    dsimp only
    rw [insertOrUpdateCredits_insert _ _ _ _ (by rw [insertNewMember_mc]; exact hcred)]
    rw [appendHistory_history, appendHistory_history]
    dsimp only
    rw [insertNewMember_history]
    simp
  refine ⟨hmain, ?_, ?_, ?_⟩
  · rw [hmain, countType_append]
    rw [show countType [trigInsertEntry st.nextMemberId
        (if isPaidOf cfg ev.tags then cfg.initialCreditsPaid else cfg.initialCreditsFree),
        initialGrantEntry st.nextMemberId
          (if isPaidOf cfg ev.tags then cfg.initialCreditsPaid else cfg.initialCreditsFree)
          (isPaidOf cfg ev.tags)] st.nextMemberId ChangeType.initial_grant = 2 from by
      simp [countType, trigInsertEntry, initialGrantEntry]]
  · rw [hmain, countType_append]
    rw [show countType [trigInsertEntry st.nextMemberId
        (if isPaidOf cfg ev.tags then cfg.initialCreditsPaid else cfg.initialCreditsFree),
        initialGrantEntry st.nextMemberId
          (if isPaidOf cfg ev.tags then cfg.initialCreditsPaid else cfg.initialCreditsFree)
          (isPaidOf cfg ev.tags)] st.nextMemberId ChangeType.monthly_refresh = 0 from by
      simp [countType, trigInsertEntry, initialGrantEntry]]
    omega
  · rw [hmain, countType_append]
    rw [show countType [trigInsertEntry st.nextMemberId
        (if isPaidOf cfg ev.tags then cfg.initialCreditsPaid else cfg.initialCreditsFree),
        initialGrantEntry st.nextMemberId
          (if isPaidOf cfg ev.tags then cfg.initialCreditsPaid else cfg.initialCreditsFree)
          (isPaidOf cfg ev.tags)] st.nextMemberId ChangeType.upgrade_bonus = 0 from by
      simp [countType, trigInsertEntry, initialGrantEntry]]
    omega

/-- Witness for the amended C7 on an empty database. -/
theorem claim_C7_witness :
    countType (processAuth ⟨100, 10, 30, 5, []⟩ ⟨[], [], [], [], [], 0, 0⟩
        ⟨7, [], 1000000, 500000, none⟩).credit_history 0 ChangeType.initial_grant =
      countType (DbState.credit_history ⟨[], [], [], [], [], 0, 0⟩) 0
        ChangeType.initial_grant + 2 :=
  (claim_C7 ⟨100, 10, 30, 5, []⟩ ⟨[], [], [], [], [], 0, 0⟩
    ⟨7, [], 1000000, 500000, none⟩ (by decide) (by decide) (by decide)).2.1

/-- Claim C1 is violated by the code: after a single initial grant of 10
credits to a brand-new free member, the stored balance is 10 while the sum
of the member's `credit_history.change_amount` values is 20, because the
schema's `log_credit_change` trigger logs every balance write in addition
to the application's own history insert. -/
theorem claim_C1_code_bug :
    balanceOf (processAuth ⟨100, 10, 30, 5, []⟩ ⟨[], [], [], [], [], 0, 0⟩
        ⟨8, [], 1000000, 500000, none⟩) 0 = 10 ∧
    historySum (processAuth ⟨100, 10, 30, 5, []⟩ ⟨[], [], [], [], [], 0, 0⟩
        ⟨8, [], 1000000, 500000, none⟩) 0 = 20 ∧
    ¬(balanceOf (processAuth ⟨100, 10, 30, 5, []⟩ ⟨[], [], [], [], [], 0, 0⟩
          ⟨8, [], 1000000, 500000, none⟩) 0 =
      historySum (processAuth ⟨100, 10, 30, 5, []⟩ ⟨[], [], [], [], [], 0, 0⟩
          ⟨8, [], 1000000, 500000, none⟩) 0) := by
  exact ⟨by decide, by decide, by decide⟩

end CircleApp
